import Mathlib

/-!
Shallow embedding of `src/symbolicexecutor.py` (a symbolic executor for a
small block-structured IR) together with the parts of its external
collaborators (`interpreter.py`, `language.py`, the z3 solver) that the
executor's behaviour depends on.  Pure functions of the Python source become
Lean functions; mutation of the per-path state is explicit state passing;
Python exceptions become `Except` errors.  A separate small heap model at the
end captures Python's reference semantics for `State.copy()`.
-/

/-- Symbolic values (z3 `ExprRef` terms as used by the executor).
`BinOp`/`Cmp` carry their operator name as a string; the executor never
inspects it. -/
inductive SymVal where
  | IntConst (i : Int)
  | BoolConst (b : Bool)
  | IntVar (name : String)
  | BoolVar (name : String)
  | BinOp (op : String) (a b : SymVal)
  | Cmp (op : String) (a b : SymVal)
  | Not (a : SymVal)
deriving DecidableEq

/-- z3 `isinstance(v, BoolRef)`: the term is of Boolean sort. -/
def SymVal.isBoolRef : SymVal → Bool
  | .BoolConst _ => true
  | .BoolVar _ => true
  | .Cmp _ _ _ => true
  | .Not _ => true
  | .IntConst _ => false
  | .IntVar _ => false
  | .BinOp _ _ _ => false

/-- Python literal operands.  In Python `bool` is a subclass of `int`, so a
boolean literal satisfies both `isinstance(v, bool)` and
`isinstance(v, int)`; the model keeps both tests. -/
inductive PyLiteral where
  | pybool (b : Bool)
  | pyint (i : Int)
deriving DecidableEq

/-- Python `isinstance(v, bool)`. -/
def PyLiteral.isinstanceBool : PyLiteral → Bool
  | .pybool _ => true
  | .pyint _ => false

/-- Python `isinstance(v, int)`: true for every literal, booleans included,
because `bool` is a subclass of `int`. -/
def PyLiteral.isinstanceInt : PyLiteral → Bool
  | _ => true

/-- The boolean a literal denotes when treated as a `bool`. -/
def PyLiteral.asBool : PyLiteral → Bool
  | .pybool b => b
  | .pyint i => decide (i ≠ 0)

/-- The integer a literal denotes when treated as an `int`
(`int(True) = 1`, `int(False) = 0`): this is the value `IntVal` would
receive if the integer test came first. -/
def PyLiteral.asInt : PyLiteral → Int
  | .pybool b => if b then 1 else 0
  | .pyint i => i

/-- Operands of instructions: a native literal or a handle to the
instruction that produces the value (instructions are identified by a
numeric id standing for Python object identity). -/
inductive Operand where
  | lit (l : PyLiteral)
  | instr (id : Nat)
deriving DecidableEq

/-- Rendering of an operand inside error-message f-strings. -/
def Operand.describe : Operand → String
  | .lit (.pybool b) => if b then "True" else "False"
  | .lit (.pyint i) => toString i
  | .instr id => "instruction " ++ toString id

/-- Instruction kinds.  `jump` holds its condition operand and the first
instruction of each successor block (`get_operand(0)`/`get_operand(1)`
return the blocks; `block[0]` is the first instruction).  The straight-line
kinds carry what their handlers in the base interpreter read. -/
inductive InstrKind where
  | load (varName : String)
  | store (src : Operand) (varName : String)
  | binaryOp (op : String) (a b : Operand)
  | cmpOp (op : String) (a b : Operand)
  | jump (cond : Operand) (thenFirst elseFirst : Nat)
  | assertInstr (cond : Operand)
deriving DecidableEq

/-- An instruction: its kind and `get_next_inst()` (`none` at block end). -/
structure Instr where
  kind : InstrKind
  next : Option Nat
deriving DecidableEq

/-- `get_condition()` of jump and assert instructions. -/
def Instr.get_condition (i : Instr) : Option Operand :=
  match i.kind with
  | .jump cond _ _ => some cond
  | .assertInstr cond => some cond
  | _ => none

/-- `get_operand(op_idx)` of a jump, followed by `[0]` on the returned
block: the first instruction of the successor block at that index. -/
def Instr.get_operand_block (i : Instr) (op_idx : Nat) : Option Nat :=
  match i.kind with
  | .jump _ thenFirst elseFirst =>
      if op_idx = 0 then some thenFirst
      else if op_idx = 1 then some elseFirst
      else none
  | _ => none

/-- `get_operand(idx)` positions that hold a `Variable` operand
(operand 0 of a load, operand 1 of a store). -/
def Instr.get_operand_var (i : Instr) (idx : Nat) : Option String :=
  match i.kind with
  | .load varName => if idx = 0 then some varName else none
  | .store _ varName => if idx = 1 then some varName else none
  | _ => none

/-- A program: the instruction table (Python object identity becomes a
numeric id) and the first instruction of the entry block
(`program.get_entry()[0]`). -/
structure Program where
  instrs : Nat → Option Instr
  entryFirst : Nat

/-- The per-path execution state (`SymbolicExecutionState`, including the
fields inherited from `ExecutionState`): program counter, variable store,
SSA value map, path condition, error slot. -/
structure SymbolicExecutionState where
  pc : Option Nat
  vars : String → Option SymVal
  values : Nat → Option SymVal
  path_cond : List SymVal
  error : Option String

/-- The constructor `SymbolicExecutionState(pc)`: empty maps, no error, and
`path_cond = [True]` (the native Python `True`, which z3 coerces to
`BoolVal(True)`). -/
def SymbolicExecutionState.mk0 (pc : Option Nat) : SymbolicExecutionState :=
  { pc := pc
    vars := fun _ => none
    values := fun _ => none
    path_cond := [SymVal.BoolConst true]
    error := none }

/-- `State.copy()`: fresh containers holding the same entries, same `pc`
and `error`.  In this pure model the container contents are values; the
reference-level independence of the fresh containers is proved on the heap
model below. -/
def SymbolicExecutionState.copy (s : SymbolicExecutionState) : SymbolicExecutionState :=
  { pc := s.pc
    vars := s.vars
    values := s.values
    path_cond := s.path_cond
    error := s.error }

/-- `State.write(var, value)`: install the value as the variable's
contents. -/
def SymbolicExecutionState.write (s : SymbolicExecutionState) (var : String)
    (value : SymVal) : SymbolicExecutionState :=
  { s with vars := fun v => if v = var then some value else s.vars v }

/-- Modelled from the spec: `State.read(var)` of the base `ExecutionState`
(`interpreter.py`, not under `src/`); section 4.2: look up a variable's
current symbolic contents, `null` when absent. -/
def SymbolicExecutionState.read (s : SymbolicExecutionState) (var : String) :
    Option SymVal :=
  s.vars var

/-- `State.eval(v)`: a native literal is converted testing
`isinstance(v, bool)` before `isinstance(v, int)` (both hold for booleans);
an instruction operand is looked up in `values` (`dict.get`, `none` when
absent). -/
def SymbolicExecutionState.eval (s : SymbolicExecutionState) : Operand → Option SymVal
  | .lit l =>
      if l.isinstanceBool then some (SymVal.BoolConst l.asBool)
      else if l.isinstanceInt then some (SymVal.IntConst l.asInt)
      else none
  | .instr id => s.values id

/-- `State.set(lhs, val)`: record the result of instruction `lhs` in
`values`. -/
def SymbolicExecutionState.set (s : SymbolicExecutionState) (lhs : Nat)
    (val : SymVal) : SymbolicExecutionState :=
  { s with values := fun i => if i = lhs then some val else s.values i }

/-- Results of the SMT solver's `check`. -/
inductive CheckResult where
  | sat
  | unsat
  | unknown
deriving DecidableEq

/-- A solver: `check` on a conjunction of constraints.  The executor's
`evalPathCond` builds a fresh `Solver()`, adds the path condition and
checks; the model abstracts z3 as a function from the constraint list to a
result. -/
def Solver := List SymVal → CheckResult

/-- Python exceptions the executor can raise. -/
inductive PyError where
  /-- `RuntimeError(f"Solver failed for: {path_cond}")` from `solverError`,
  carrying the failing path condition. -/
  | runtimeSolverFailed (path_cond : List SymVal)
  /-- `TypeError`: a function was called missing a required positional
  argument. -/
  | typeErrorMissingArg (fname : String)
  /-- `NameError`: the given name is not defined. -/
  | nameErrorUndefined (name : String)
  /-- `AssertionError` from a failed `assert` statement. -/
  | assertionError (msg : String)
  /-- Any other uncaught exception. -/
  | runtimeError (msg : String)
deriving DecidableEq

/-- The executor's own mutable fields: the LIFO worklist (`LifoQueue`,
head of the list = top) and the two counters. -/
structure ExecutorState where
  stack : List SymbolicExecutionState
  executed_paths : Nat
  errors : Nat

/-- `solverError(path_cond)`: the fatal solver-error report. -/
def solverError (path_cond : List SymVal) : PyError :=
  .runtimeSolverFailed path_cond

/-- `evalPathCond(path_cond)`: fresh solver context, add, check. -/
def evalPathCond (check : Solver) (path_cond : List SymVal) : CheckResult :=
  check path_cond

/-- `getExtendedPathCond(state, condval)`: copy of the path condition with
`condval` appended. -/
def getExtendedPathCond (state : SymbolicExecutionState) (condval : SymVal) :
    List SymVal :=
  state.path_cond ++ [condval]

/-- `getJumpBlock(state, path_cond, op_idx)`: `jump = state.pc`; a copy of
the state whose `path_cond` is replaced and whose `pc` is the first
instruction of the successor block `jump.get_operand(op_idx)`.  `none`
models the attribute/index errors Python would raise when `pc` is not a
jump. -/
def getJumpBlock (prog : Program) (state : SymbolicExecutionState)
    (path_cond : List SymVal) (op_idx : Nat) : Option SymbolicExecutionState :=
  match state.pc.bind prog.instrs with
  | none => none
  | some jump =>
    match jump.get_operand_block op_idx with
    | none => none
    | some successor_first =>
        let pc_state := state.copy
        some { pc_state with path_cond := path_cond, pc := some successor_first }

/-- `queueJumpBlock(state, path_cond, op_idx)`: build the successor state
and push it onto the worklist. -/
def queueJumpBlock (prog : Program) (ex : ExecutorState)
    (state : SymbolicExecutionState) (path_cond : List SymVal) (op_idx : Nat) :
    Option ExecutorState :=
  (getJumpBlock prog state path_cond op_idx).map
    (fun pc_state => { ex with stack := pc_state :: ex.stack })

/-- `executeJump(state)`: evaluate the condition, extend the path condition
with both polarities, triage the solver results.  The branch where both
polarities are `unsat` calls `self.solverError()` with no argument, which in
Python raises `TypeError` (the method requires `path_cond`); the guard
`assert isinstance(condval, BoolRef) or ...` has the message
`f"Invalid condition: {exprs}"` over the undefined name `exprs`, so a
non-boolean condition raises `NameError`. -/
def executeJump (check : Solver) (prog : Program) (ex : ExecutorState)
    (state : SymbolicExecutionState) :
    Except PyError (ExecutorState × SymbolicExecutionState) :=
  match state.pc.bind prog.instrs with
  | none => .error (.runtimeError "executeJump: pc is not an instruction")
  | some jump =>
    match jump.get_condition with
    | none => .error (.runtimeError "executeJump: instruction has no condition")
    | some cond =>
      match state.eval cond with
      | none =>
          .ok (ex, { state with
                     error := some ("Using unknown value: " ++ Operand.describe cond) })
      | some condval =>
        if condval.isBoolRef = false then
          .error (.nameErrorUndefined "exprs")
        else
          let path_cond := getExtendedPathCond state condval
          let not_path_cond := getExtendedPathCond state (SymVal.Not condval)
          let cond_check := evalPathCond check path_cond
          let not_cond_check := evalPathCond check not_path_cond
          if cond_check = CheckResult.unknown then
            .error (solverError path_cond)
          else if not_cond_check = CheckResult.unknown then
            .error (solverError not_path_cond)
          else if cond_check = CheckResult.sat ∧ not_cond_check = CheckResult.sat then
            match queueJumpBlock prog ex state not_path_cond 1,
                  getJumpBlock prog state path_cond 0 with
            | some ex2, some st2 => .ok (ex2, st2)
            | _, _ => .error (.runtimeError "executeJump: malformed jump operands")
          else if cond_check = CheckResult.sat then
            match getJumpBlock prog state path_cond 0 with
            | some st2 => .ok (ex, st2)
            | none => .error (.runtimeError "executeJump: malformed jump operands")
          else if not_cond_check = CheckResult.sat then
            match getJumpBlock prog state not_path_cond 1 with
            | some st2 => .ok (ex, st2)
            | none => .error (.runtimeError "executeJump: malformed jump operands")
          else
            .error (.typeErrorMissingArg "solverError")

/-- `handleUninitVar(state)`: record a fresh free integer variable named
after the loaded variable (`Int(op.get_name())`) as the result of the
current instruction.  The `variables` map is not touched. -/
def handleUninitVar (prog : Program) (state : SymbolicExecutionState) :
    Option SymbolicExecutionState :=
  match state.pc, state.pc.bind prog.instrs with
  | some id, some instruction =>
    match instruction.get_operand_var 0 with
    | some opName => some (state.set id (SymVal.IntVar opName))
    | none => none
  | _, _ => none

/-- `getNextState(state, path_cond)`: a copy of the state whose `path_cond`
is replaced and whose `pc` is `pc.get_next_inst()`. -/
def getNextState (prog : Program) (state : SymbolicExecutionState)
    (path_cond : List SymVal) : Option SymbolicExecutionState :=
  match state.pc.bind prog.instrs with
  | none => none
  | some instr =>
      let next_state := state.copy
      some { next_state with path_cond := path_cond, pc := instr.next }

/-- `queueNextState(state, path_cond)`: push the successor onto the
worklist when it still has a program counter, otherwise count one executed
path. -/
def queueNextState (prog : Program) (ex : ExecutorState)
    (state : SymbolicExecutionState) (path_cond : List SymVal) :
    Option ExecutorState :=
  (getNextState prog state path_cond).map (fun pc_state =>
    match pc_state.pc with
    | some _ => { ex with stack := pc_state :: ex.stack }
    | none => { ex with executed_paths := ex.executed_paths + 1 })

/-- `incErrorPaths()`: one more error path, one more executed path. -/
def incErrorPaths (ex : ExecutorState) : ExecutorState :=
  { ex with errors := ex.errors + 1, executed_paths := ex.executed_paths + 1 }

/-- `assertError(state)`: record the per-path assertion failure
(`f"Assertion failed: {instruction}"`). -/
def assertError (state : SymbolicExecutionState) : SymbolicExecutionState :=
  { state with error := some "Assertion failed" }

/-- `executeAssert(state)`: evaluate the condition and triage the solver
results on both polarities.  The branch for a `null` condition value
formats `f"Using unknown value: {jump.get_condition()}"`, but no name
`jump` is defined in `executeAssert`, so Python raises `NameError` there;
the branch where both polarities are `unsat` calls `self.solverError()`
with no argument, a `TypeError`.  When the condition side is `sat` and its
negation `unsat`, no branch of the if/elif chain applies and the state is
returned unchanged. -/
def executeAssert (check : Solver) (prog : Program) (ex : ExecutorState)
    (state : SymbolicExecutionState) :
    Except PyError (ExecutorState × SymbolicExecutionState) :=
  match state.pc.bind prog.instrs with
  | none => .error (.runtimeError "executeAssert: pc is not an instruction")
  | some instruction =>
    match instruction.get_condition with
    | none => .error (.runtimeError "executeAssert: instruction has no condition")
    | some cond =>
      match state.eval cond with
      | none => .error (.nameErrorUndefined "jump")
      | some condval =>
        if condval.isBoolRef = false then
          .error (.assertionError "Invalid condition")
        else
          let path_cond := getExtendedPathCond state condval
          let not_path_cond := getExtendedPathCond state (SymVal.Not condval)
          let cond_check := evalPathCond check path_cond
          let not_cond_check := evalPathCond check not_path_cond
          if cond_check = CheckResult.unknown then
            .error (solverError path_cond)
          else if not_cond_check = CheckResult.unknown then
            .error (solverError not_path_cond)
          else if cond_check = CheckResult.sat ∧ not_cond_check = CheckResult.sat then
            match queueNextState prog ex state path_cond with
            | some ex2 => .ok (ex2, assertError state)
            | none => .error (.runtimeError "executeAssert: malformed instruction")
          else if not_cond_check = CheckResult.sat then
            .ok (ex, assertError state)
          else if cond_check = CheckResult.unsat ∧ not_cond_check = CheckResult.unsat then
            .error (.typeErrorMissingArg "solverError")
          else
            .ok (ex, state)

/-- Modelled from the spec: the LOAD handler of the base interpreter
(`interpreter.py`, not under `src/`); section 4.3: if the variable is
uninitialized call `handleUninitVar` (which is in `src/`), otherwise record
the read result; advance `pc` to `instr.next`. -/
def executeLoad (prog : Program) (state : SymbolicExecutionState) :
    Option SymbolicExecutionState :=
  match state.pc, state.pc.bind prog.instrs with
  | some id, some instr =>
    match instr.get_operand_var 0 with
    | none => none
    | some varName =>
      match state.read varName with
      | none => (handleUninitVar prog state).map (fun st => { st with pc := instr.next })
      | some v => some { state.set id v with pc := instr.next }
  | _, _ => none

/-- Modelled from the spec: the STORE handler of the base interpreter
(`interpreter.py`, not under `src/`); section 4.3: evaluate the value
operand, error when `null`, otherwise write it to the variable; advance
`pc`. -/
def executeStore (prog : Program) (state : SymbolicExecutionState) :
    Option SymbolicExecutionState :=
  match state.pc.bind prog.instrs with
  | some instr =>
    match instr.kind with
    | .store src varName =>
      match state.eval src with
      | none => some { state with
                       error := some ("Using unknown value: " ++ Operand.describe src) }
      | some v => some { state.write varName v with pc := instr.next }
    | _ => none
  | none => none

/-- Modelled from the spec: the arithmetic and comparison handlers of the
base interpreter (`interpreter.py`, not under `src/`); section 4.3:
evaluate both operands, error when either is `null`, otherwise record the
constructed term; advance `pc`. -/
def executeBinCmp (prog : Program) (state : SymbolicExecutionState) :
    Option SymbolicExecutionState :=
  match state.pc, state.pc.bind prog.instrs with
  | some id, some instr =>
    match instr.kind with
    | .binaryOp op a b =>
      match state.eval a, state.eval b with
      | some va, some vb =>
          some { state.set id (SymVal.BinOp op va vb) with pc := instr.next }
      | _, _ => some { state with error := some "Using unknown value" }
    | .cmpOp op a b =>
      match state.eval a, state.eval b with
      | some va, some vb =>
          some { state.set id (SymVal.Cmp op va vb) with pc := instr.next }
      | _, _ => some { state with error := some "Using unknown value" }
    | _ => none
  | _, _ => none

/-- Modelled from the spec: `executeInstruction` of the base interpreter
(`interpreter.py`, not under `src/`); sections 4.3 and 4.5: dispatch on the
kind of `state.pc`, returning `none` when the path has terminated
(`pc = null`); jump and assert dispatch to the overriding handlers of
`src/symbolicexecutor.py`. -/
def executeInstruction (check : Solver) (prog : Program) (ex : ExecutorState)
    (state : SymbolicExecutionState) :
    Except PyError (ExecutorState × Option SymbolicExecutionState) :=
  match state.pc with
  | none => .ok (ex, none)
  | some id =>
    match prog.instrs id with
    | none => .error (.runtimeError "Unknown instruction")
    | some instr =>
      match instr.kind with
      | .jump _ _ _ =>
          (executeJump check prog ex state).map (fun p => (p.1, some p.2))
      | .assertInstr _ =>
          (executeAssert check prog ex state).map (fun p => (p.1, some p.2))
      | .load _ =>
          match executeLoad prog state with
          | some st => .ok (ex, some st)
          | none => .error (.runtimeError "malformed load")
      | .store _ _ =>
          match executeStore prog state with
          | some st => .ok (ex, some st)
          | none => .error (.runtimeError "malformed store")
      | .binaryOp _ _ _ =>
          match executeBinCmp prog state with
          | some st => .ok (ex, some st)
          | none => .error (.runtimeError "malformed instruction")
      | .cmpOp _ _ _ =>
          match executeBinCmp prog state with
          | some st => .ok (ex, some st)
          | none => .error (.runtimeError "malformed instruction")

/-- A configuration of the exploration driver `run()`: the worklist, the
state currently held by the inner loop (`none` between outer iterations),
and the two counters.  `normals` is a ghost counter, not in the source: it
counts the paths that terminated normally (their `pc` became `null`), so
that path accounting can be stated. -/
structure Config where
  stack : List SymbolicExecutionState
  current : Option SymbolicExecutionState
  executed_paths : Nat
  errors : Nat
  normals : Nat

/-- The start of `run()`: the initial state (`pc` at the entry block's
first instruction) is pushed onto the worklist. -/
def initConfig (prog : Program) : Config :=
  { stack := [SymbolicExecutionState.mk0 (some prog.entryFirst)]
    current := none
    executed_paths := 0
    errors := 0
    normals := 0 }

/-- One step of `run()`'s loops.  With a current state, perform one
`executeInstruction`: a `none` result ends the path normally
(`executed_paths += 1`), a state with an error ends it via `incErrorPaths`,
otherwise the inner loop continues with the returned state.  With no
current state, pop the LIFO worklist, or finish (`.ok none`) when it is
empty.  Inside a handler, `executed_paths` only grows by normal
terminations (`queueNextState` with a null successor `pc`), so the ghost
`normals` counter absorbs that growth. -/
def stepRun (check : Solver) (prog : Program) (cfg : Config) :
    Except PyError (Option Config) :=
  match cfg.current with
  | some st =>
    match executeInstruction check prog
        ⟨cfg.stack, cfg.executed_paths, cfg.errors⟩ st with
    | .error e => .error e
    | .ok (ex2, ret) =>
      let dNorm := ex2.executed_paths - cfg.executed_paths
      match ret with
      | none =>
          .ok (some { stack := ex2.stack, current := none,
                      executed_paths := ex2.executed_paths + 1,
                      errors := ex2.errors,
                      normals := cfg.normals + dNorm + 1 })
      | some st2 =>
        match st2.error with
        | some _ =>
            .ok (some { stack := ex2.stack, current := none,
                        executed_paths := ex2.executed_paths + 1,
                        errors := ex2.errors + 1,
                        normals := cfg.normals + dNorm })
        | none =>
            .ok (some { stack := ex2.stack, current := some st2,
                        executed_paths := ex2.executed_paths,
                        errors := ex2.errors,
                        normals := cfg.normals + dNorm })
  | none =>
    match cfg.stack with
    | [] => .ok none
    | s :: rest =>
        .ok (some { stack := rest, current := some s,
                    executed_paths := cfg.executed_paths,
                    errors := cfg.errors,
                    normals := cfg.normals })

/-- Configurations reachable by the driver from a given configuration. -/
inductive Reaches (check : Solver) (prog : Program) : Config → Config → Prop
  | refl (c : Config) : Reaches check prog c c
  | step {a b c : Config} : Reaches check prog a b →
      stepRun check prog b = .ok (some c) → Reaches check prog a c

/-- A Python heap for the containers owned by execution states: tables of
variable dictionaries, value dictionaries and path-condition lists,
addressed by reference, plus the next free reference.  This refines the
pure model above to make Python's aliasing visible. -/
structure Heap where
  varTabs : Nat → (String → Option SymVal)
  valTabs : Nat → (Nat → Option SymVal)
  pconds : Nat → List SymVal
  nextRef : Nat

/-- An execution state at the reference level: it holds references into the
heap for its three mutable containers. -/
structure RefState where
  pc : Option Nat
  varsRef : Nat
  valsRef : Nat
  pcondRef : Nat
  error : Option String

/-- The state's references all point below the heap's allocation
frontier. -/
def RefState.wf (s : RefState) (h : Heap) : Prop :=
  s.varsRef < h.nextRef ∧ s.valsRef < h.nextRef ∧ s.pcondRef < h.nextRef

instance (s : RefState) (h : Heap) : Decidable (s.wf h) := by
  unfold RefState.wf; infer_instance

/-- The contents of a state's `variables` dictionary. -/
def RefState.viewVars (s : RefState) (h : Heap) : String → Option SymVal :=
  h.varTabs s.varsRef

/-- The contents of a state's `values` dictionary. -/
def RefState.viewValues (s : RefState) (h : Heap) : Nat → Option SymVal :=
  h.valTabs s.valsRef

/-- The contents of a state's `path_cond` list. -/
def RefState.viewPathCond (s : RefState) (h : Heap) : List SymVal :=
  h.pconds s.pcondRef

/-- `SymbolicExecutionState(pc)` at the reference level: allocate three
fresh containers (empty dictionaries, `path_cond = [True]`). -/
def allocState (h : Heap) (pc : Option Nat) : Heap × RefState :=
  ({ varTabs := fun r => if r = h.nextRef then (fun _ => none) else h.varTabs r
     valTabs := fun r => if r = h.nextRef + 1 then (fun _ => none) else h.valTabs r
     pconds := fun r => if r = h.nextRef + 2 then [SymVal.BoolConst true] else h.pconds r
     nextRef := h.nextRef + 3 },
   { pc := pc, varsRef := h.nextRef, valsRef := h.nextRef + 1,
     pcondRef := h.nextRef + 2, error := none })

/-- `State.copy()` at the reference level: construct a fresh state, then
replace its containers' contents by `dict.copy()` / `list.copy()` of the
original's (fresh containers, same entries), and take over `error`. -/
def copyRef (h : Heap) (s : RefState) : Heap × RefState :=
  let an := allocState h s.pc
  let h1 := an.1
  let n := an.2
  ({ h1 with
     varTabs := fun r => if r = n.varsRef then h.varTabs s.varsRef else h1.varTabs r
     valTabs := fun r => if r = n.valsRef then h.valTabs s.valsRef else h1.valTabs r
     pconds := fun r => if r = n.pcondRef then h.pconds s.pcondRef else h1.pconds r },
   { n with error := s.error })

/-- `State.write(var, value)` at the reference level: mutate the state's
`variables` dictionary in place. -/
def writeRef (h : Heap) (s : RefState) (var : String) (value : SymVal) : Heap :=
  { h with varTabs := fun r =>
      if r = s.varsRef then
        (fun v => if v = var then some value else h.varTabs s.varsRef v)
      else h.varTabs r }

/-- `State.set(lhs, val)` at the reference level: mutate the state's
`values` dictionary in place. -/
def setRef (h : Heap) (s : RefState) (lhs : Nat) (val : SymVal) : Heap :=
  { h with valTabs := fun r =>
      if r = s.valsRef then
        (fun i => if i = lhs then some val else h.valTabs s.valsRef i)
      else h.valTabs r }

/-- `path_cond.append(c)` at the reference level: mutate the state's
path-condition list in place. -/
def appendPathCondRef (h : Heap) (s : RefState) (c : SymVal) : Heap :=
  { h with pconds := fun r =>
      if r = s.pcondRef then h.pconds s.pcondRef ++ [c] else h.pconds r }

/-- The mutations a state's containers undergo during execution. -/
inductive Mutation where
  | write (var : String) (val : SymVal)
  | set (lhs : Nat) (val : SymVal)
  | extendPathCond (c : SymVal)

/-- Apply a mutation through a given state's references. -/
def applyMutation (h : Heap) (s : RefState) : Mutation → Heap
  | .write var val => writeRef h s var val
  | .set lhs val => setRef h s lhs val
  | .extendPathCond c => appendPathCondRef h s c

/-- A mock deterministic solver reporting every query satisfiable. -/
def satSolver : Solver := fun _ => CheckResult.sat

/-- A mock deterministic solver reporting every query unsatisfiable. -/
def unsatSolver : Solver := fun _ => CheckResult.unsat

/-- A mock deterministic solver reporting every query unknown. -/
def unknownSolver : Solver := fun _ => CheckResult.unknown

/-- A mock deterministic solver: a query is unsatisfiable exactly when it
contains the negation of the constant true. -/
def constSolver : Solver := fun pcs =>
  if SymVal.Not (SymVal.BoolConst true) ∈ pcs then CheckResult.unsat
  else CheckResult.sat

/-- Fixture: instruction 0 asserts the literal `True` and chains to
instruction 1. -/
def assertTrueProg : Program :=
  { instrs := fun id =>
      if id = 0 then some ⟨InstrKind.assertInstr (Operand.lit (PyLiteral.pybool true)), some 1⟩
      else if id = 1 then some ⟨InstrKind.load "x", none⟩
      else none
    entryFirst := 0 }

/-- Fixture: instruction 0 jumps on the literal `True` to blocks starting
at instructions 1 (then) and 2 (else). -/
def jumpProg : Program :=
  { instrs := fun id =>
      if id = 0 then some ⟨InstrKind.jump (Operand.lit (PyLiteral.pybool true)) 1 2, none⟩
      else if id = 1 then some ⟨InstrKind.load "x", none⟩
      else if id = 2 then some ⟨InstrKind.load "y", none⟩
      else none
    entryFirst := 0 }

/-- Fixture: instruction 0 jumps on the value of instruction 5, which has
no entry in `values`. -/
def jumpUnknownValProg : Program :=
  { instrs := fun id =>
      if id = 0 then some ⟨InstrKind.jump (Operand.instr 5) 1 2, none⟩ else none
    entryFirst := 0 }

/-- Fixture: instruction 0 asserts the value of instruction 5, which has no
entry in `values`. -/
def assertUnknownValProg : Program :=
  { instrs := fun id =>
      if id = 0 then some ⟨InstrKind.assertInstr (Operand.instr 5), some 1⟩ else none
    entryFirst := 0 }

/-- Fixture: instruction 0 loads the variable `x`. -/
def loadProg : Program :=
  { instrs := fun id =>
      if id = 0 then some ⟨InstrKind.load "x", none⟩ else none
    entryFirst := 0 }

/-- Fixture: an empty heap whose first three references are a state's
containers. -/
def heap0 : Heap :=
  { varTabs := fun _ _ => none
    valTabs := fun _ _ => none
    pconds := fun _ => [SymVal.BoolConst true]
    nextRef := 3 }

/-- Fixture: the state owning the first three references of `heap0`. -/
def refState0 : RefState :=
  { pc := some 0, varsRef := 0, valsRef := 1, pcondRef := 2, error := none }

/-- The driver invariant: every worklist state is error-free, the state
held by the inner loop is error-free, and the counters satisfy the path
accounting `executed_paths = normals + errors` (so `errors` never exceeds
`executed_paths`). -/
def DriverInv (cfg : Config) : Prop :=
  (∀ s ∈ cfg.stack, s.error = none)
  ∧ (∀ s, cfg.current = some s → s.error = none)
  ∧ cfg.executed_paths = cfg.normals + cfg.errors
  ∧ cfg.errors ≤ cfg.executed_paths

/-- Fixture: the driver configuration after popping the initial state. -/
def cfgPopped : Config :=
  { stack := [], current := some (SymbolicExecutionState.mk0 (some 0)),
    executed_paths := 0, errors := 0, normals := 0 }

/-- Fixture: the else-side state forked by the jump of `jumpProg`. -/
def elseStW : SymbolicExecutionState :=
  { pc := some 2, vars := fun _ => none, values := fun _ => none,
    path_cond := [SymVal.BoolConst true, SymVal.Not (SymVal.BoolConst true)],
    error := none }

/-- Fixture: the then-side state the jump of `jumpProg` continues into. -/
def thenStW : SymbolicExecutionState :=
  { pc := some 1, vars := fun _ => none, values := fun _ => none,
    path_cond := [SymVal.BoolConst true, SymVal.BoolConst true],
    error := none }

/-- Fixture: the state of `loadProg` after its load executed (terminated,
with the fresh free variable recorded). -/
def loadedStW : SymbolicExecutionState :=
  { pc := none, vars := fun _ => none,
    values := fun i => if i = 0 then some (SymVal.IntVar "x") else none,
    path_cond := [SymVal.BoolConst true], error := none }

/-- C9: `eval` converts a native boolean literal `b` to `BoolConst b` and
never to the integer constant that `IntVal` would produce (`1`/`0`), even
though the literal also satisfies the `isinstance(v, int)` test (booleans
are a subclass of integers); a non-boolean integer literal `i` evaluates to
`IntConst i`. -/
theorem eval_literal_priority :
    (∀ (s : SymbolicExecutionState) (b : Bool),
      s.eval (Operand.lit (PyLiteral.pybool b)) = some (SymVal.BoolConst b)
      ∧ PyLiteral.isinstanceInt (PyLiteral.pybool b) = true
      ∧ s.eval (Operand.lit (PyLiteral.pybool b))
          ≠ some (SymVal.IntConst (PyLiteral.asInt (PyLiteral.pybool b))))
    ∧ (∀ (s : SymbolicExecutionState) (i : Int),
      s.eval (Operand.lit (PyLiteral.pyint i)) = some (SymVal.IntConst i)) := by
  constructor
  · intro s b
    refine ⟨rfl, rfl, ?_⟩
    simp [SymbolicExecutionState.eval, PyLiteral.isinstanceBool, PyLiteral.asBool]
  · intro s i
    rfl

/-- C10: on a LOAD of an uninitialized variable, the handler records the
fresh free integer variable named after the variable as the instruction's
result in `values`, and the `variables` map is unchanged. -/
theorem load_uninit_fresh_var (prog : Program) (state : SymbolicExecutionState)
    (id : Nat) (nxt : Option Nat) (varName : String)
    (hpc : state.pc = some id)
    (hinstr : prog.instrs id = some ⟨InstrKind.load varName, nxt⟩)
    (hread : state.read varName = none) :
    ∃ st2, executeLoad prog state = some st2
      ∧ st2.values = (fun i => if i = id then some (SymVal.IntVar varName) else state.values i)
      ∧ st2.vars = state.vars := by
  refine ⟨{ state.set id (SymVal.IntVar varName) with
            pc := (⟨InstrKind.load varName, nxt⟩ : Instr).next }, ?_, rfl, rfl⟩
  simp [executeLoad, handleUninitVar, hpc, hinstr, hread,
    Instr.get_operand_var, SymbolicExecutionState.set]

/-- C10 witness: loading the uninitialized variable `x` at instruction 0 of
`loadProg` yields a state whose `values` maps instruction 0 to the free
variable `IntVar "x"` and whose `variables` map is unchanged. -/
theorem load_uninit_fresh_var_witness :
    ∃ st2, executeLoad loadProg (SymbolicExecutionState.mk0 (some 0)) = some st2
      ∧ st2.values = (fun i => if i = 0 then some (SymVal.IntVar "x")
          else (SymbolicExecutionState.mk0 (some 0)).values i)
      ∧ st2.vars = (SymbolicExecutionState.mk0 (some 0)).vars :=
  load_uninit_fresh_var loadProg (SymbolicExecutionState.mk0 (some 0)) 0 none "x"
    rfl rfl rfl

/-- C2 fails on the code: on an assert whose condition side is `sat` and
whose violation side is `unsat` (here `assert True` on the initial path
condition), `executeAssert` enqueues nothing, leaves both counters
untouched, and returns the state unchanged with `pc` still at the assert
and no error recorded — so the driver re-dispatches the same assert
forever, as the final conjunct shows: the driver configuration steps to
itself. -/
theorem assert_sat_unsat_no_continuation :
    executeAssert constSolver assertTrueProg ⟨[], 0, 0⟩ (SymbolicExecutionState.mk0 (some 0))
      = .ok (⟨[], 0, 0⟩, SymbolicExecutionState.mk0 (some 0))
    ∧ (SymbolicExecutionState.mk0 (some 0)).pc = some 0
    ∧ (SymbolicExecutionState.mk0 (some 0)).error = none
    ∧ stepRun constSolver assertTrueProg
        ⟨[], some (SymbolicExecutionState.mk0 (some 0)), 0, 0, 0⟩
      = .ok (some ⟨[], some (SymbolicExecutionState.mk0 (some 0)), 0, 0, 0⟩) :=
  ⟨rfl, rfl, rfl, rfl⟩

/-- C5 fails on the code: when both polarities of a jump (and likewise of
an assert) come back `unsat`, the executor calls `self.solverError()`
without its required `path_cond` argument, so the abort is a `TypeError`,
not the dedicated `RuntimeError("Solver failed for: ...")` report carrying
the failing path condition. -/
theorem both_unsat_raises_typeerror :
    executeJump unsatSolver jumpProg ⟨[], 0, 0⟩ (SymbolicExecutionState.mk0 (some 0))
      = .error (PyError.typeErrorMissingArg "solverError")
    ∧ executeAssert unsatSolver assertTrueProg ⟨[], 0, 0⟩ (SymbolicExecutionState.mk0 (some 0))
      = .error (PyError.typeErrorMissingArg "solverError")
    ∧ ∀ pcs, (PyError.typeErrorMissingArg "solverError") ≠ PyError.runtimeSolverFailed pcs :=
  ⟨rfl, rfl, fun _ h => PyError.noConfusion h⟩

/-- C6 fails on the code for asserts: a jump whose condition evaluates to
`null` records the per-path "Using unknown value" error and returns the
state, but an assert in the same situation raises `NameError` (its error
message references the name `jump`, which is not defined in
`executeAssert`), aborting the whole exploration. -/
theorem unknown_value_jump_tolerated_assert_crashes :
    executeJump satSolver jumpUnknownValProg ⟨[], 0, 0⟩ (SymbolicExecutionState.mk0 (some 0))
      = .ok (⟨[], 0, 0⟩,
          { SymbolicExecutionState.mk0 (some 0) with
            error := some ("Using unknown value: " ++ Operand.describe (Operand.instr 5)) })
    ∧ executeAssert satSolver assertUnknownValProg ⟨[], 0, 0⟩ (SymbolicExecutionState.mk0 (some 0))
      = .error (PyError.nameErrorUndefined "jump") :=
  ⟨rfl, rfl⟩

/-- C3: `State.copy()` is a deep copy.  For a well-formed state `s`, the
copy holds the same contents, and every mutation (`write`, `set`, or
path-condition extension) applied through the copy's references leaves all
three of the original's containers unchanged; symmetrically, mutations
through the original leave the copy's containers unchanged. -/
theorem copy_state_independence (h : Heap) (s : RefState) (m : Mutation)
    (hwf : s.wf h) :
    (RefState.viewVars (copyRef h s).2 (copyRef h s).1 = RefState.viewVars s h
      ∧ RefState.viewValues (copyRef h s).2 (copyRef h s).1 = RefState.viewValues s h
      ∧ RefState.viewPathCond (copyRef h s).2 (copyRef h s).1 = RefState.viewPathCond s h)
    ∧ (RefState.viewVars s (applyMutation (copyRef h s).1 (copyRef h s).2 m)
        = RefState.viewVars s (copyRef h s).1
      ∧ RefState.viewValues s (applyMutation (copyRef h s).1 (copyRef h s).2 m)
        = RefState.viewValues s (copyRef h s).1
      ∧ RefState.viewPathCond s (applyMutation (copyRef h s).1 (copyRef h s).2 m)
        = RefState.viewPathCond s (copyRef h s).1)
    ∧ (RefState.viewVars (copyRef h s).2 (applyMutation (copyRef h s).1 s m)
        = RefState.viewVars (copyRef h s).2 (copyRef h s).1
      ∧ RefState.viewValues (copyRef h s).2 (applyMutation (copyRef h s).1 s m)
        = RefState.viewValues (copyRef h s).2 (copyRef h s).1
      ∧ RefState.viewPathCond (copyRef h s).2 (applyMutation (copyRef h s).1 s m)
        = RefState.viewPathCond (copyRef h s).2 (copyRef h s).1) := by
  obtain ⟨h1, h2, h3⟩ := hwf
  have e1 : s.varsRef ≠ h.nextRef := Nat.ne_of_lt h1
  have e2 : s.valsRef ≠ h.nextRef + 1 := by omega
  have e3 : s.pcondRef ≠ h.nextRef + 2 := by omega
  refine ⟨⟨?_, ?_, ?_⟩, ?_, ?_⟩
  · simp [copyRef, allocState, RefState.viewVars]
  · simp [copyRef, allocState, RefState.viewValues]
  · simp [copyRef, allocState, RefState.viewPathCond]
  · cases m <;>
      simp [copyRef, allocState, applyMutation, writeRef, setRef, appendPathCondRef,
        RefState.viewVars, RefState.viewValues, RefState.viewPathCond, e1, e2, e3]
  · cases m <;>
      simp [copyRef, allocState, applyMutation, writeRef, setRef, appendPathCondRef,
        RefState.viewVars, RefState.viewValues, RefState.viewPathCond,
        e1.symm, e2.symm, e3.symm]

/-- C3 witness: in the concrete heap `heap0` with state `refState0`,
copying and then writing `x := 7` through either of the two states leaves
the other one's containers untouched. -/
theorem copy_state_independence_witness :
    (RefState.viewVars (copyRef heap0 refState0).2 (copyRef heap0 refState0).1
        = RefState.viewVars refState0 heap0
      ∧ RefState.viewValues (copyRef heap0 refState0).2 (copyRef heap0 refState0).1
        = RefState.viewValues refState0 heap0
      ∧ RefState.viewPathCond (copyRef heap0 refState0).2 (copyRef heap0 refState0).1
        = RefState.viewPathCond refState0 heap0)
    ∧ (RefState.viewVars refState0
        (applyMutation (copyRef heap0 refState0).1 (copyRef heap0 refState0).2
          (Mutation.write "x" (SymVal.IntConst 7)))
        = RefState.viewVars refState0 (copyRef heap0 refState0).1
      ∧ RefState.viewValues refState0
        (applyMutation (copyRef heap0 refState0).1 (copyRef heap0 refState0).2
          (Mutation.write "x" (SymVal.IntConst 7)))
        = RefState.viewValues refState0 (copyRef heap0 refState0).1
      ∧ RefState.viewPathCond refState0
        (applyMutation (copyRef heap0 refState0).1 (copyRef heap0 refState0).2
          (Mutation.write "x" (SymVal.IntConst 7)))
        = RefState.viewPathCond refState0 (copyRef heap0 refState0).1)
    ∧ (RefState.viewVars (copyRef heap0 refState0).2
        (applyMutation (copyRef heap0 refState0).1 refState0
          (Mutation.write "x" (SymVal.IntConst 7)))
        = RefState.viewVars (copyRef heap0 refState0).2 (copyRef heap0 refState0).1
      ∧ RefState.viewValues (copyRef heap0 refState0).2
        (applyMutation (copyRef heap0 refState0).1 refState0
          (Mutation.write "x" (SymVal.IntConst 7)))
        = RefState.viewValues (copyRef heap0 refState0).2 (copyRef heap0 refState0).1
      ∧ RefState.viewPathCond (copyRef heap0 refState0).2
        (applyMutation (copyRef heap0 refState0).1 refState0
          (Mutation.write "x" (SymVal.IntConst 7)))
        = RefState.viewPathCond (copyRef heap0 refState0).2 (copyRef heap0 refState0).1) :=
  copy_state_independence heap0 refState0 (Mutation.write "x" (SymVal.IntConst 7))
    (by decide)

/-- C1: at a jump whose condition evaluates to a boolean `cv` with both
extended path conditions satisfiable, one driver step enqueues a copied
state for the else block (`pc = elseFirst`,
`path_cond = path_cond ++ [Not cv]`, maps as in the original) on top of the
worklist and continues with the then-side state (`pc = thenFirst`,
`path_cond = path_cond ++ [cv]`) as the current state, so the then side is
executed before the enqueued else side. -/
theorem jump_fork_enqueues_else_continues_then
    (check : Solver) (prog : Program) (cfg : Config)
    (state : SymbolicExecutionState) (id thenFirst elseFirst : Nat)
    (cond : Operand) (nxt : Option Nat) (cv : SymVal)
    (hcur : cfg.current = some state)
    (hpc : state.pc = some id)
    (hinstr : prog.instrs id = some ⟨InstrKind.jump cond thenFirst elseFirst, nxt⟩)
    (heval : state.eval cond = some cv)
    (hbool : cv.isBoolRef = true)
    (hsat1 : check (state.path_cond ++ [cv]) = CheckResult.sat)
    (hsat2 : check (state.path_cond ++ [SymVal.Not cv]) = CheckResult.sat)
    (herr : state.error = none) :
    ∃ elseSt thenSt,
      stepRun check prog cfg = .ok (some
        { stack := elseSt :: cfg.stack, current := some thenSt,
          executed_paths := cfg.executed_paths, errors := cfg.errors,
          normals := cfg.normals })
      ∧ elseSt.pc = some elseFirst
      ∧ elseSt.path_cond = state.path_cond ++ [SymVal.Not cv]
      ∧ elseSt.vars = state.vars ∧ elseSt.values = state.values
      ∧ elseSt.error = none
      ∧ thenSt.pc = some thenFirst
      ∧ thenSt.path_cond = state.path_cond ++ [cv]
      ∧ thenSt.vars = state.vars ∧ thenSt.values = state.values
      ∧ thenSt.error = none := by
  have hj : executeJump check prog ⟨cfg.stack, cfg.executed_paths, cfg.errors⟩ state
      = .ok (⟨{ state.copy with
                path_cond := state.path_cond ++ [SymVal.Not cv]
                pc := some elseFirst } :: cfg.stack, cfg.executed_paths, cfg.errors⟩,
             { state.copy with
               path_cond := state.path_cond ++ [cv]
               pc := some thenFirst }) := by
    unfold executeJump
    rw [hpc]
    simp only [Option.some_bind]
    rw [hinstr]
    simp only [Instr.get_condition]
    rw [heval]
    simp only [hbool, getExtendedPathCond, evalPathCond, hsat1, hsat2]
    simp [queueJumpBlock, getJumpBlock, hpc, hinstr, Instr.get_operand_block,
      SymbolicExecutionState.copy]
  refine ⟨{ state.copy with
            path_cond := state.path_cond ++ [SymVal.Not cv]
            pc := some elseFirst },
          { state.copy with
            path_cond := state.path_cond ++ [cv]
            pc := some thenFirst },
          ?_, rfl, rfl, rfl, rfl, ?_, rfl, rfl, rfl, rfl, ?_⟩
  · unfold stepRun
    simp only [hcur]
    have hd : executeInstruction check prog ⟨cfg.stack, cfg.executed_paths, cfg.errors⟩ state
        = .ok (⟨{ state.copy with
                  path_cond := state.path_cond ++ [SymVal.Not cv]
                  pc := some elseFirst } :: cfg.stack, cfg.executed_paths, cfg.errors⟩,
               some { state.copy with
                      path_cond := state.path_cond ++ [cv]
                      pc := some thenFirst }) := by
      unfold executeInstruction
      simp only [hpc, hinstr]
      rw [hj]
      rfl
    rw [hd]
    simp [SymbolicExecutionState.copy, herr]
  · simpa [SymbolicExecutionState.copy] using herr
  · simpa [SymbolicExecutionState.copy] using herr

/-- C1 witness: in `jumpProg` with a solver answering `sat` to everything,
one driver step from the initial state at the jump enqueues the else-side
state and continues with the then-side state. -/
theorem jump_fork_enqueues_else_continues_then_witness :
    ∃ elseSt thenSt,
      stepRun satSolver jumpProg
          ⟨[], some (SymbolicExecutionState.mk0 (some 0)), 0, 0, 0⟩
        = .ok (some { stack := [elseSt], current := some thenSt,
                      executed_paths := 0, errors := 0, normals := 0 })
      ∧ elseSt.pc = some 2
      ∧ elseSt.path_cond = (SymbolicExecutionState.mk0 (some 0)).path_cond
          ++ [SymVal.Not (SymVal.BoolConst true)]
      ∧ elseSt.vars = (SymbolicExecutionState.mk0 (some 0)).vars
      ∧ elseSt.values = (SymbolicExecutionState.mk0 (some 0)).values
      ∧ elseSt.error = none
      ∧ thenSt.pc = some 1
      ∧ thenSt.path_cond = (SymbolicExecutionState.mk0 (some 0)).path_cond
          ++ [SymVal.BoolConst true]
      ∧ thenSt.vars = (SymbolicExecutionState.mk0 (some 0)).vars
      ∧ thenSt.values = (SymbolicExecutionState.mk0 (some 0)).values
      ∧ thenSt.error = none :=
  jump_fork_enqueues_else_continues_then satSolver jumpProg
    ⟨[], some (SymbolicExecutionState.mk0 (some 0)), 0, 0, 0⟩
    (SymbolicExecutionState.mk0 (some 0)) 0 1 2
    (Operand.lit (PyLiteral.pybool true)) none (SymVal.BoolConst true)
    rfl rfl rfl rfl rfl rfl rfl rfl

/-- C4: if the solver returns unknown for either extended path condition
of a jump or an assert, the handler raises the fatal solver-error
(RuntimeError with the failing path condition) and the dispatch aborts:
nothing is enqueued, no state is advanced or marked with a per-path
error. -/
theorem solver_unknown_is_fatal
    (check : Solver) (prog : Program) (ex : ExecutorState)
    (state : SymbolicExecutionState) (id : Nat) (instr : Instr)
    (cond : Operand) (cv : SymVal)
    (hpc : state.pc = some id)
    (hinstr : prog.instrs id = some instr)
    (hkind : (∃ t e, instr.kind = InstrKind.jump cond t e)
      ∨ instr.kind = InstrKind.assertInstr cond)
    (heval : state.eval cond = some cv)
    (hbool : cv.isBoolRef = true)
    (hunk : check (state.path_cond ++ [cv]) = CheckResult.unknown
      ∨ check (state.path_cond ++ [SymVal.Not cv]) = CheckResult.unknown) :
    ∃ pcFail, executeInstruction check prog ex state
        = .error (PyError.runtimeSolverFailed pcFail)
      ∧ (pcFail = state.path_cond ++ [cv]
        ∨ pcFail = state.path_cond ++ [SymVal.Not cv]) := by
  have hbind : state.pc.bind prog.instrs = some instr := by
    rw [hpc, Option.some_bind, hinstr]
  rcases hkind with ⟨t, e, hk⟩ | hk
  · have hcond : instr.get_condition = some cond := by
      simp [Instr.get_condition, hk]
    have hj : ∃ pcFail, executeJump check prog ex state
        = .error (PyError.runtimeSolverFailed pcFail)
      ∧ (pcFail = state.path_cond ++ [cv]
        ∨ pcFail = state.path_cond ++ [SymVal.Not cv]) := by
      unfold executeJump
      rw [hbind]
      simp only [hcond]
      rw [heval]
      simp only [hbool, getExtendedPathCond, evalPathCond]
      rcases hunk with h | h
      · refine ⟨state.path_cond ++ [cv], ?_, Or.inl rfl⟩
        simp [h, solverError]
      · by_cases h1 : check (state.path_cond ++ [cv]) = CheckResult.unknown
        · refine ⟨state.path_cond ++ [cv], ?_, Or.inl rfl⟩
          simp [h1, solverError]
        · refine ⟨state.path_cond ++ [SymVal.Not cv], ?_, Or.inr rfl⟩
          simp [h, h1, solverError]
    obtain ⟨pcFail, hj1, hj2⟩ := hj
    refine ⟨pcFail, ?_, hj2⟩
    unfold executeInstruction
    simp only [hpc, hinstr, hk]
    rw [hj1]
    rfl
  · have hcond : instr.get_condition = some cond := by
      simp [Instr.get_condition, hk]
    have hj : ∃ pcFail, executeAssert check prog ex state
        = .error (PyError.runtimeSolverFailed pcFail)
      ∧ (pcFail = state.path_cond ++ [cv]
        ∨ pcFail = state.path_cond ++ [SymVal.Not cv]) := by
      unfold executeAssert
      rw [hbind]
      simp only [hcond]
      rw [heval]
      simp only [hbool, getExtendedPathCond, evalPathCond]
      rcases hunk with h | h
      · refine ⟨state.path_cond ++ [cv], ?_, Or.inl rfl⟩
        simp [h, solverError]
      · by_cases h1 : check (state.path_cond ++ [cv]) = CheckResult.unknown
        · refine ⟨state.path_cond ++ [cv], ?_, Or.inl rfl⟩
          simp [h1, solverError]
        · refine ⟨state.path_cond ++ [SymVal.Not cv], ?_, Or.inr rfl⟩
          simp [h, h1, solverError]
    obtain ⟨pcFail, hj1, hj2⟩ := hj
    refine ⟨pcFail, ?_, hj2⟩
    unfold executeInstruction
    simp only [hpc, hinstr, hk]
    rw [hj1]
    rfl

/-- C4 witness: in `jumpProg` with a solver answering `unknown` to
everything, dispatching the initial state aborts with the solver-failure
runtime error. -/
theorem solver_unknown_is_fatal_witness :
    ∃ pcFail, executeInstruction unknownSolver jumpProg ⟨[], 0, 0⟩
        (SymbolicExecutionState.mk0 (some 0))
        = .error (PyError.runtimeSolverFailed pcFail)
      ∧ (pcFail = (SymbolicExecutionState.mk0 (some 0)).path_cond
            ++ [SymVal.BoolConst true]
        ∨ pcFail = (SymbolicExecutionState.mk0 (some 0)).path_cond
            ++ [SymVal.Not (SymVal.BoolConst true)]) :=
  solver_unknown_is_fatal unknownSolver jumpProg ⟨[], 0, 0⟩
    (SymbolicExecutionState.mk0 (some 0)) 0
    ⟨InstrKind.jump (Operand.lit (PyLiteral.pybool true)) 1 2, none⟩
    (Operand.lit (PyLiteral.pybool true)) (SymVal.BoolConst true)
    rfl rfl (Or.inl ⟨1, 2, rfl⟩) rfl rfl (Or.inl rfl)
theorem getJumpBlock_error_eq (prog : Program) (state st2 : SymbolicExecutionState)
    (path_cond : List SymVal) (op_idx : Nat)
    (h : getJumpBlock prog state path_cond op_idx = some st2) :
    st2.error = state.error := by
  unfold getJumpBlock at h
  split at h
  · cases h
  · split at h
    · cases h
    · injection h with h'
      subst h'
      rfl

theorem getNextState_error_eq (prog : Program) (state st2 : SymbolicExecutionState)
    (path_cond : List SymVal)
    (h : getNextState prog state path_cond = some st2) :
    st2.error = state.error := by
  unfold getNextState at h
  split at h
  · cases h
  · injection h with h'
    subst h'
    rfl

theorem queueJumpBlock_some_spec (prog : Program) (ex ex2 : ExecutorState)
    (state : SymbolicExecutionState) (path_cond : List SymVal) (op_idx : Nat)
    (h : queueJumpBlock prog ex state path_cond op_idx = some ex2) :
    ex2.executed_paths = ex.executed_paths ∧ ex2.errors = ex.errors
    ∧ ∃ ps, ex2.stack = ps :: ex.stack ∧ ps.error = state.error := by
  unfold queueJumpBlock at h
  rw [Option.map_eq_some'] at h
  obtain ⟨ps, hps, hmap⟩ := h
  subst hmap
  exact ⟨rfl, rfl, ps, rfl, getJumpBlock_error_eq _ _ _ _ _ hps⟩

theorem queueNextState_some_spec (prog : Program) (ex ex2 : ExecutorState)
    (state : SymbolicExecutionState) (path_cond : List SymVal)
    (h : queueNextState prog ex state path_cond = some ex2) :
    ex2.errors = ex.errors
    ∧ (ex2.executed_paths = ex.executed_paths
        ∨ ex2.executed_paths = ex.executed_paths + 1)
    ∧ ∀ s ∈ ex2.stack, s ∈ ex.stack ∨ s.error = state.error := by
  unfold queueNextState at h
  rw [Option.map_eq_some'] at h
  obtain ⟨ps, hps, hmap⟩ := h
  have hpse : ps.error = state.error := getNextState_error_eq _ _ _ _ hps
  rcases hpc : ps.pc with _ | pcv
  · rw [hpc] at hmap
    subst hmap
    exact ⟨rfl, Or.inr rfl, fun s hs => Or.inl hs⟩
  · rw [hpc] at hmap
    subst hmap
    refine ⟨rfl, Or.inl rfl, fun s hs => ?_⟩
    rcases List.mem_cons.mp hs with rfl | hs2
    · exact Or.inr hpse
    · exact Or.inl hs2
theorem executeJump_ok_spec (check : Solver) (prog : Program) (ex ex2 : ExecutorState)
    (state st2 : SymbolicExecutionState)
    (h : executeJump check prog ex state = .ok (ex2, st2)) :
    ex2.errors = ex.errors
    ∧ (ex2.executed_paths = ex.executed_paths
        ∨ ex2.executed_paths = ex.executed_paths + 1)
    ∧ ∀ s ∈ ex2.stack, s ∈ ex.stack ∨ s.error = state.error := by
  unfold executeJump at h
  split at h
  · cases h
  · split at h
    · cases h
    · split at h
      · -- eval returned none: .ok (ex, errored state)
        injection h with h'
        obtain ⟨h1, h2⟩ := Prod.mk.injEq .. |>.mp h'
        subst h1
        exact ⟨rfl, Or.inl rfl, fun s hs => Or.inl hs⟩
      · split at h
        · cases h
        · dsimp only at h
          split at h
          · cases h
          · split at h
            · cases h
            · split at h
              · -- both sat: fork
                split at h
                · rename_i ex3 st3 hq hg
                  injection h with h'
                  obtain ⟨h1, h2⟩ := Prod.mk.injEq .. |>.mp h'
                  subst h1
                  obtain ⟨he, hr, ps, hst, hpse⟩ :=
                    queueJumpBlock_some_spec _ _ _ _ _ _ hq
                  refine ⟨hr, Or.inl he, fun s hs => ?_⟩
                  rw [hst] at hs
                  rcases List.mem_cons.mp hs with rfl | hs2
                  · exact Or.inr hpse
                  · exact Or.inl hs2
                · cases h
              · split at h
                · -- then side only
                  split at h
                  · injection h with h'
                    obtain ⟨h1, h2⟩ := Prod.mk.injEq .. |>.mp h'
                    subst h1
                    exact ⟨rfl, Or.inl rfl, fun s hs => Or.inl hs⟩
                  · cases h
                · split at h
                  · -- else side only
                    split at h
                    · injection h with h'
                      obtain ⟨h1, h2⟩ := Prod.mk.injEq .. |>.mp h'
                      subst h1
                      exact ⟨rfl, Or.inl rfl, fun s hs => Or.inl hs⟩
                    · cases h
                  · cases h
theorem executeAssert_ok_spec (check : Solver) (prog : Program) (ex ex2 : ExecutorState)
    (state st2 : SymbolicExecutionState)
    (h : executeAssert check prog ex state = .ok (ex2, st2)) :
    ex2.errors = ex.errors
    ∧ (ex2.executed_paths = ex.executed_paths
        ∨ ex2.executed_paths = ex.executed_paths + 1)
    ∧ ∀ s ∈ ex2.stack, s ∈ ex.stack ∨ s.error = state.error := by
  unfold executeAssert at h
  split at h
  · cases h
  · split at h
    · cases h
    · split at h
      · cases h
      · split at h
        · cases h
        · dsimp only at h
          split at h
          · cases h
          · split at h
            · cases h
            · split at h
              · -- both sat: enqueue continuation, error the popped state
                split at h
                · rename_i ex3 hq
                  injection h with h'
                  obtain ⟨h1, h2⟩ := Prod.mk.injEq .. |>.mp h'
                  subst h1
                  exact ⟨(queueNextState_some_spec _ _ _ _ _ hq).1,
                    (queueNextState_some_spec _ _ _ _ _ hq).2.1,
                    (queueNextState_some_spec _ _ _ _ _ hq).2.2⟩
                · cases h
              · split at h
                · injection h with h'
                  obtain ⟨h1, h2⟩ := Prod.mk.injEq .. |>.mp h'
                  subst h1
                  exact ⟨rfl, Or.inl rfl, fun s hs => Or.inl hs⟩
                · split at h
                  · cases h
                  · injection h with h'
                    obtain ⟨h1, h2⟩ := Prod.mk.injEq .. |>.mp h'
                    subst h1
                    exact ⟨rfl, Or.inl rfl, fun s hs => Or.inl hs⟩
theorem executeInstruction_ok_spec (check : Solver) (prog : Program)
    (ex ex2 : ExecutorState) (state : SymbolicExecutionState)
    (ret : Option SymbolicExecutionState)
    (h : executeInstruction check prog ex state = .ok (ex2, ret)) :
    ex2.errors = ex.errors
    ∧ (ex2.executed_paths = ex.executed_paths
        ∨ ex2.executed_paths = ex.executed_paths + 1)
    ∧ ∀ s ∈ ex2.stack, s ∈ ex.stack ∨ s.error = state.error := by
  unfold executeInstruction at h
  split at h
  · injection h with h'
    obtain ⟨h1, h2⟩ := Prod.mk.injEq .. |>.mp h'
    subst h1
    exact ⟨rfl, Or.inl rfl, fun s hs => Or.inl hs⟩
  · split at h
    · cases h
    · split at h
      · -- jump
        rcases he : executeJump check prog ex state with e | p
        · rw [he] at h
          simp only [Except.map] at h
          cases h
        · obtain ⟨ex3, st3⟩ := p
          rw [he] at h
          simp only [Except.map] at h
          injection h with h'
          obtain ⟨h1, h2⟩ := Prod.mk.injEq .. |>.mp h'
          subst h1
          exact executeJump_ok_spec _ _ _ _ _ _ he
      · -- assert
        rcases he : executeAssert check prog ex state with e | p
        · rw [he] at h
          simp only [Except.map] at h
          cases h
        · obtain ⟨ex3, st3⟩ := p
          rw [he] at h
          simp only [Except.map] at h
          injection h with h'
          obtain ⟨h1, h2⟩ := Prod.mk.injEq .. |>.mp h'
          subst h1
          exact executeAssert_ok_spec _ _ _ _ _ _ he
      · -- load
        split at h
        · injection h with h'
          obtain ⟨h1, h2⟩ := Prod.mk.injEq .. |>.mp h'
          subst h1
          exact ⟨rfl, Or.inl rfl, fun s hs => Or.inl hs⟩
        · cases h
      · -- store
        split at h
        · injection h with h'
          obtain ⟨h1, h2⟩ := Prod.mk.injEq .. |>.mp h'
          subst h1
          exact ⟨rfl, Or.inl rfl, fun s hs => Or.inl hs⟩
        · cases h
      · -- binaryOp
        split at h
        · injection h with h'
          obtain ⟨h1, h2⟩ := Prod.mk.injEq .. |>.mp h'
          subst h1
          exact ⟨rfl, Or.inl rfl, fun s hs => Or.inl hs⟩
        · cases h
      · -- cmpOp
        split at h
        · injection h with h'
          obtain ⟨h1, h2⟩ := Prod.mk.injEq .. |>.mp h'
          subst h1
          exact ⟨rfl, Or.inl rfl, fun s hs => Or.inl hs⟩
        · cases h
theorem driverInv_init (prog : Program) : DriverInv (initConfig prog) := by
  refine ⟨?_, ?_, rfl, Nat.le_refl 0⟩
  · intro s hs
    rcases List.mem_singleton.mp hs with rfl
    rfl
  · intro s hs
    cases hs

theorem driverInv_step (check : Solver) (prog : Program) (cfg cfg2 : Config)
    (hinv : DriverInv cfg)
    (hstep : stepRun check prog cfg = .ok (some cfg2)) : DriverInv cfg2 := by
  obtain ⟨hstack, hcur, hacc, hle⟩ := hinv
  unfold stepRun at hstep
  split at hstep
  · rename_i st hst
    split at hstep
    · cases hstep
    · rename_i p ex2 ret hexec
      obtain ⟨he, hd, hstk⟩ := executeInstruction_ok_spec _ _ _ _ _ _ hexec
      split at hstep
      · -- ret = none: normal termination
        injection hstep with h'
        injection h' with h''
        subst h''
        unfold DriverInv
        refine ⟨?_, ?_, ?_, ?_⟩
        · intro s hs
          rcases hstk s hs with h | h
          · exact hstack s h
          · rw [h]; exact hcur st hst
        · intro s hs
          cases hs
        · dsimp only
          dsimp only [ExecutorState.errors, ExecutorState.executed_paths] at he hd
          omega
        · dsimp only
          dsimp only [ExecutorState.errors, ExecutorState.executed_paths] at he hd
          omega
      · rename_i st2
        split at hstep
        · -- st2 errored: incErrorPaths
          injection hstep with h'
          injection h' with h''
          subst h''
          unfold DriverInv
          refine ⟨?_, ?_, ?_, ?_⟩
          · intro s hs
            rcases hstk s hs with h | h
            · exact hstack s h
            · rw [h]; exact hcur st hst
          · intro s hs
            cases hs
          · dsimp only
            dsimp only [ExecutorState.errors, ExecutorState.executed_paths] at he hd
            omega
          · dsimp only
            dsimp only [ExecutorState.errors, ExecutorState.executed_paths] at he hd
            omega
        · -- st2 clean: inner loop continues
          rename_i herr2
          injection hstep with h'
          injection h' with h''
          subst h''
          unfold DriverInv
          refine ⟨?_, ?_, ?_, ?_⟩
          · intro s hs
            rcases hstk s hs with h | h
            · exact hstack s h
            · rw [h]; exact hcur st hst
          · intro s hs
            injection hs with h3
            subst h3
            exact herr2
          · dsimp only
            dsimp only [ExecutorState.errors, ExecutorState.executed_paths] at he hd
            omega
          · dsimp only
            dsimp only [ExecutorState.errors, ExecutorState.executed_paths] at he hd
            omega
  · split at hstep
    · cases hstep
    · rename_i s rest hpop
      injection hstep with h'
      injection h' with h''
      subst h''
      refine ⟨?_, ?_, hacc, hle⟩
      · intro t ht
        exact hstack t (by rw [hpop]; exact List.mem_cons_of_mem s ht)
      · intro t ht
        injection ht with h3
        subst h3
        exact hstack s (by rw [hpop]; exact List.mem_cons_self s rest)

theorem reaches_driverInv (check : Solver) (prog : Program) (c1 c2 : Config)
    (h : Reaches check prog c1 c2) (hinv : DriverInv c1) : DriverInv c2 := by
  induction h with
  | refl => exact hinv
  | step hr hs ih => exact driverInv_step _ _ _ _ ih hs

/-- C7: in every driver configuration reachable from the start of `run()`,
every state on the worklist has a null `error` field: states are enqueued
error-free (the initial state, jump forks, and assert continuations are all
copied before any error is recorded), and a state with an error is counted
and dropped, never returned to the worklist. -/
theorem worklist_states_error_free (check : Solver) (prog : Program) (cfg : Config)
    (h : Reaches check prog (initConfig prog) cfg) :
    ∀ s ∈ cfg.stack, s.error = none :=
  (reaches_driverInv check prog _ _ h (driverInv_init prog)).1

/-- C7 witness: after two driver steps on `jumpProg` (pop the initial
state, then fork at the jump), the enqueued else-side state on the worklist
has a null `error` field. -/
theorem worklist_states_error_free_witness :
    elseStW.error = none :=
  worklist_states_error_free satSolver jumpProg
    (Config.mk [elseStW] (some thenStW) 0 0 0)
    (Reaches.step
      (Reaches.step (Reaches.refl (initConfig jumpProg))
        (show stepRun satSolver jumpProg (initConfig jumpProg)
            = Except.ok (some cfgPopped) from rfl))
      (show stepRun satSolver jumpProg cfgPopped
          = Except.ok (some (Config.mk [elseStW] (some thenStW) 0 0 0)) from rfl))
    elseStW (List.mem_singleton.mpr rfl)

/-- C8: in every driver configuration reachable from the start of `run()`,
the counters satisfy `executed_paths = normals + errors` — where `normals`
is the ghost count of normally terminated paths (`pc` became null), each
incremented exactly once per terminated path — and hence
`errors ≤ executed_paths`. -/
theorem path_accounting (check : Solver) (prog : Program) (cfg : Config)
    (h : Reaches check prog (initConfig prog) cfg) :
    cfg.executed_paths = cfg.normals + cfg.errors
    ∧ cfg.errors ≤ cfg.executed_paths :=
  ⟨(reaches_driverInv check prog _ _ h (driverInv_init prog)).2.2.1,
   (reaches_driverInv check prog _ _ h (driverInv_init prog)).2.2.2⟩

/-- C8 witness: after three driver steps on `loadProg` (pop, execute the
load, terminate the path), the configuration has one executed path, one
normal termination and no errors, satisfying the accounting equation. -/
theorem path_accounting_witness :
    (Config.mk [] none 1 0 1).executed_paths
      = (Config.mk [] none 1 0 1).normals + (Config.mk [] none 1 0 1).errors
    ∧ (Config.mk [] none 1 0 1).errors ≤ (Config.mk [] none 1 0 1).executed_paths :=
  path_accounting satSolver loadProg _
    (Reaches.step
      (Reaches.step
        (Reaches.step (Reaches.refl (initConfig loadProg))
          (show stepRun satSolver loadProg (initConfig loadProg)
              = Except.ok (some cfgPopped) from rfl))
        (show stepRun satSolver loadProg cfgPopped
            = Except.ok (some (Config.mk [] (some loadedStW) 0 0 0)) from rfl))
      (show stepRun satSolver loadProg (Config.mk [] (some loadedStW) 0 0 0)
          = Except.ok (some (Config.mk [] none 1 0 1)) from rfl))
